import Mathlib

/-!
Verification development for the termina terminal I/O library.

The definitions below are a shallow embedding of the repository's source:

* `src/src/event.rs`   — the event data model (`Event`, `KeyEvent`, `Modifiers`, …);
* `src/src/lib.rs`     — the `OneBased` coordinate wrapper (duplicated verbatim
  in `src/src/escape/csi.rs`);
* `src/src/escape/csi.rs` — the outbound CSI command model and the
  `MouseReport`/`Cursor` encoders;
* `src/src/parse.rs`   — the incremental escape-sequence decoder (`Parser`);
* `src/src/event/reader.rs` — the shared predicate-filtered event queue.

Machine integers (`u8`, `u16`, `u32`) are modelled as `Nat`, with an explicit
`% 2 ^ w` exactly where the Rust code can overflow.  Rust functions returning
`Result<_, MalformedSequenceError>` are modelled with an outcome type that also
records panics (`todo!`, failed `assert!`, `unwrap` of `None`), since several
claims are about panic-freedom.
-/

namespace Termina

/-! ## Style data types (`src/src/style.rs`) -/

/-- Styling of a cell's underline (`style.rs`, `enum Underline`). -/
inductive Underline
  | none
  | single
  | double
  | curly
  | dotted
  | dashed
deriving DecidableEq

/-- Cursor style (`style.rs`, `enum CursorStyle`; `escape/csi.rs` repeats the
same enum verbatim). The discriminants are 0–6 in declaration order. -/
inductive CursorStyle
  | default
  | blinkingBlock
  | steadyBlock
  | blinkingUnderline
  | steadyUnderline
  | blinkingBar
  | steadyBar
deriving DecidableEq

/-- An RGBA color with `u8` components (`style.rs`, `struct RgbaColor`). -/
structure RgbaColor where
  red : Nat
  green : Nat
  blue : Nat
  alpha : Nat
deriving DecidableEq

/-- A color specification (`style.rs`, `enum ColorSpec`): default, an 8-bit
palette index, or a true color. -/
inductive ColorSpec
  | reset
  | paletteIndex (idx : Nat)
  | trueColor (color : RgbaColor)
deriving DecidableEq

/-- Text intensity (`style.rs`, `enum Intensity`). -/
inductive Intensity
  | normal
  | bold
  | dim
deriving DecidableEq

/-- Text blinking (`style.rs`, `enum Blink`). -/
inductive Blink
  | none
  | slow
  | rapid
deriving DecidableEq

/-- Font selection (`style.rs`, `enum Font`). -/
inductive Font
  | default
  | alternate (n : Nat)
deriving DecidableEq

/-- Vertical alignment (`style.rs`, `enum VerticalAlign`). -/
inductive VerticalAlign
  | baseLine
  | superScript
  | subScript
deriving DecidableEq

/-! ## CSI command data types (`src/src/escape/csi.rs`) -/

/-- Select-graphics-rendition commands (`csi.rs`, `enum Sgr`). -/
inductive Sgr
  | reset
  | intensity (i : Intensity)
  | underline (u : Underline)
  | blink (b : Blink)
  | italic (b : Bool)
  | reverse (b : Bool)
  | invisible (b : Bool)
  | strikeThrough (b : Bool)
  | overline (b : Bool)
  | font (f : Font)
  | verticalAlign (v : VerticalAlign)
  | foreground (c : ColorSpec)
  | background (c : ColorSpec)
  | underlineColor (c : ColorSpec)
deriving DecidableEq

/-- Tabulation-clear parameter (`csi.rs`, `enum TabulationClear`). -/
inductive TabulationClear
  | clearCharacterTabStopAtActivePosition
  | clearLineTabStopAtActiveLine
  | clearCharacterTabStopsAtActiveLine
  | clearAllCharacterTabStops
  | clearAllLineTabStops
  | clearAllTabStops
deriving DecidableEq

/-- Cursor-tabulation-control parameter (`csi.rs`, `enum CursorTabulationControl`). -/
inductive CursorTabulationControl
  | setCharacterTabStopAtActivePosition
  | setLineTabStopAtActiveLine
  | clearCharacterTabStopAtActivePosition
  | clearLineTabstopAtActiveLine
  | clearAllCharacterTabStopsAtActiveLine
  | clearAllCharacterTabStops
  | clearAllLineTabStops
deriving DecidableEq

/-- The one-based coordinate wrapper (`src/src/lib.rs`, `struct OneBased`,
repeated verbatim in `escape/csi.rs`).  The Rust type wraps a `NonZeroU16`;
`value` is the stored 16-bit payload.  The `unsafe NonZeroU16::new_unchecked`
constructor used by `from_zero_based` performs no check, so the model stores
whatever 16-bit value the (wrapping) arithmetic produced. -/
structure OneBased where
  value : Nat
deriving DecidableEq

/-- `OneBased::new`: `NonZeroU16::new` returns `None` exactly on zero
(`lib.rs` lines 25–30). The argument is a `u16`. -/
def OneBased.new (n : Nat) : Option OneBased :=
  if n = 0 then none else some ⟨n⟩

/-- `OneBased::from_zero_based` (`lib.rs` lines 32–34): computes `n + 1` in
`u16` arithmetic — wrapping modulo `2 ^ 16` in release builds — and feeds it
unchecked into the `NonZeroU16` wrapper. -/
def OneBased.from_zero_based (n : Nat) : OneBased :=
  ⟨(n + 1) % 65536⟩

/-- `OneBased::get` (`lib.rs` lines 36–38): the stored value. -/
def OneBased.get (ob : OneBased) : Nat :=
  ob.value

/-- `OneBased::get_zero_based` (`lib.rs` lines 40–42): `self.get() - 1` in
`u16` arithmetic, which wraps when the stored value is 0. -/
def OneBased.get_zero_based (ob : OneBased) : Nat :=
  (ob.get + 65535) % 65536

/-- Cursor-movement and cursor-report commands (`csi.rs`, `enum Cursor`). -/
inductive Cursor
  | backwardTabulation (n : Nat)
  | tabulationClear (t : TabulationClear)
  | characterAbsolute (n : OneBased)
  | characterPositionAbsolute (n : OneBased)
  | characterPositionBackward (n : Nat)
  | characterPositionForward (n : Nat)
  | characterAndLinePosition (line : OneBased) (col : OneBased)
  | linePositionAbsolute (n : Nat)
  | linePositionBackward (n : Nat)
  | linePositionForward (n : Nat)
  | forwardTabulation (n : Nat)
  | nextLine (n : Nat)
  | precedingLine (n : Nat)
  | activePositionReport (line : OneBased) (col : OneBased)
  | requestActivePositionReport
  | saveCursor
  | restoreCursor
  | tabulationControl (t : CursorTabulationControl)
  | left (n : Nat)
  | down (n : Nat)
  | right (n : Nat)
  | up (n : Nat)
  | position (line : OneBased) (col : OneBased)
  | lineTabulation (n : Nat)
  | setTopAndBottomMargins (top : OneBased) (bottom : OneBased)
  | setLeftAndRightMargins (left : OneBased) (right : OneBased)
  | cursorStyle (style : CursorStyle)
deriving DecidableEq

/-- Erase-in-line parameter (`csi.rs`, `enum EraseInLine`). -/
inductive EraseInLine
  | eraseToEndOfLine
  | eraseToStartOfLine
  | eraseLine
deriving DecidableEq

/-- Erase-in-display parameter (`csi.rs`, `enum EraseInDisplay`). -/
inductive EraseInDisplay
  | eraseToEndOfDisplay
  | eraseToStartOfDisplay
  | eraseDisplay
  | eraseScrollback
deriving DecidableEq

/-- Editing commands (`csi.rs`, `enum Edit`). -/
inductive Edit
  | deleteCharacter (n : Nat)
  | deleteLine (n : Nat)
  | eraseCharacter (n : Nat)
  | eraseInLine (e : EraseInLine)
  | insertCharacter (n : Nat)
  | insertLine (n : Nat)
  | scrollDown (n : Nat)
  | scrollUp (n : Nat)
  | eraseInDisplay (e : EraseInDisplay)
  | repeatCharacter (n : Nat)
deriving DecidableEq

/-- DEC private mode codes (`csi.rs`, `enum DecPrivateModeCode`); the model
keeps the names, the numeric discriminants live only in the encoder. -/
inductive DecPrivateModeCode
  | applicationCursorKeys
  | decAnsiMode
  | select132Columns
  | smoothScroll
  | reverseVideo
  | originMode
  | autoWrap
  | autoRepeat
  | startBlinkingCursor
  | showCursor
  | reverseWraparound
  | leftRightMarginMode
  | sixelDisplayMode
  | mouseTracking
  | highlightMouseTracking
  | buttonEventMouse
  | anyEventMouse
  | focusTracking
  | utf8Mouse
  | sgrMouse
  | rxvtMouse
  | sgrPixelsMouse
  | xtermMetaSendsEscape
  | xtermAltSendsEscape
  | saveCursor
  | clearAndEnableAlternateScreen
  | enableAlternateScreen
  | optEnableAlternateScreen
  | bracketedPaste
  | graphemeClustering
  | theme
  | usePrivateColorRegistersForEachGraphic
  | synchronizedOutput
  | minTTYApplicationEscapeKeyMode
  | sixelScrollsRight
  | win32InputMode
deriving DecidableEq

/-- A DEC private mode, either a known code or a raw number
(`csi.rs`, `enum DecPrivateMode`). -/
inductive DecPrivateMode
  | code (c : DecPrivateModeCode)
  | unspecified (n : Nat)
deriving DecidableEq

/-- Terminal mode codes (`csi.rs`, `enum TerminalModeCode`). -/
inductive TerminalModeCode
  | keyboardAction
  | insert
  | biDirectionalSupportMode
  | sendReceive
  | automaticNewline
  | showCursor
deriving DecidableEq

/-- A terminal mode, either a known code or a raw number
(`csi.rs`, `enum TerminalMode`). -/
inductive TerminalMode
  | code (c : TerminalModeCode)
  | unspecified (n : Nat)
deriving DecidableEq

/-- Xterm key-modifier resources (`csi.rs`, `enum XtermKeyModifierResource`). -/
inductive XtermKeyModifierResource
  | keyboard
  | cursorKeys
  | functionKeys
  | otherKeys
deriving DecidableEq

/-- DECRPM setting report values (`csi.rs`, `enum DecModeSetting`). -/
inductive DecModeSetting
  | notRecognized
  | set
  | reset
  | permanentlySet
  | permanentlyReset
deriving DecidableEq

/-- Mode set/reset/query commands (`csi.rs`, `enum Mode`).  `XtermKeyMode`'s
value is an optional `i64`. -/
inductive Mode
  | setDecPrivateMode (m : DecPrivateMode)
  | resetDecPrivateMode (m : DecPrivateMode)
  | saveDecPrivateMode (m : DecPrivateMode)
  | restoreDecPrivateMode (m : DecPrivateMode)
  | queryDecPrivateMode (m : DecPrivateMode)
  | reportDecPrivateMode (mode : DecPrivateMode) (setting : DecModeSetting)
  | setMode (m : TerminalMode)
  | resetMode (m : TerminalMode)
  | queryMode (m : TerminalMode)
  | xtermKeyMode (resource : XtermKeyModifierResource) (value : Option Int)
deriving DecidableEq

/-- Mouse buttons as they appear in SGR mouse reports
(`csi.rs`, `enum MouseButton`, the outbound-report variant). -/
inductive SgrMouseButton
  | button1Press
  | button2Press
  | button3Press
  | button4Press
  | button5Press
  | button6Press
  | button7Press
  | button1Release
  | button2Release
  | button3Release
  | button4Release
  | button5Release
  | button6Release
  | button7Release
  | button1Drag
  | button2Drag
  | button3Drag
  | none
deriving DecidableEq

/-- The modifier bitset (`src/src/event.rs` lines 80–91, `bitflags! struct
Modifiers: u8`).  The bit assignments are copied from the source:
`SHIFT = 1 << 1`, `ALT = 1 << 2`, `CONTROL = 1 << 3`, `SUPER = 1 << 4`,
`HYPER = 1 << 5` and `META = 1 << 5` — the source really assigns `1 << 5` to
both of the last two. -/
structure Modifiers where
  bits : Nat
deriving DecidableEq

def Modifiers.NONE : Modifiers := ⟨0⟩

def Modifiers.SHIFT : Modifiers := ⟨2⟩

def Modifiers.ALT : Modifiers := ⟨4⟩

def Modifiers.CONTROL : Modifiers := ⟨8⟩

def Modifiers.SUPER : Modifiers := ⟨16⟩

def Modifiers.HYPER : Modifiers := ⟨32⟩

def Modifiers.META : Modifiers := ⟨32⟩

/-- Bitflags union (the `|` operator / `insert`). -/
def Modifiers.or (a b : Modifiers) : Modifiers :=
  ⟨a.bits ||| b.bits⟩

/-- Bitflags intersection (the `&` operator). -/
def Modifiers.and (a b : Modifiers) : Modifiers :=
  ⟨a.bits &&& b.bits⟩

/-- Bitflags `contains`: `self.bits & other.bits == other.bits`. -/
def Modifiers.contains (a b : Modifiers) : Bool :=
  a.bits &&& b.bits == b.bits

/-- Bitflags `empty()` = no flags. -/
def Modifiers.empty : Modifiers := ⟨0⟩

/-- Bitflags `set(other, value)`: insert on `true`, remove (`& !other`, in
`u8` arithmetic) on `false`. -/
def Modifiers.set (a flag : Modifiers) (value : Bool) : Modifiers :=
  if value then ⟨a.bits ||| flag.bits⟩ else ⟨a.bits &&& (255 ^^^ flag.bits)⟩

/-- Kitty keyboard protocol flags (`csi.rs`, `bitflags! struct
KittyKeyboardFlags: u8`). -/
structure KittyKeyboardFlags where
  bits : Nat
deriving DecidableEq

/-- Kitty keyboard CSI commands (`csi.rs`, `enum Keyboard`). -/
inductive Keyboard
  | queryFlags
  | reportFlags (flags : KittyKeyboardFlags)
  | pushFlags (flags : KittyKeyboardFlags)
  | popFlags (number : Nat)
  | setFlags (flags : KittyKeyboardFlags) (mode : Nat)
deriving DecidableEq

/-- Device status/attribute commands (`csi.rs`, `enum Device`). -/
inductive Device
  | deviceAttributes
  | softReset
  | requestPrimaryDeviceAttributes
  | requestSecondaryDeviceAttributes
  | requestTertiaryDeviceAttributes
  | statusReport
  | requestTerminalNameAndVersion
  | requestTerminalParameters (n : Int)
deriving DecidableEq

/-- Theme mode (`csi.rs`, `enum ThemeMode`). -/
inductive ThemeMode
  | dark
  | light
deriving DecidableEq

/-- Theme query/report commands (`csi.rs`, `enum Theme`). -/
inductive Theme
  | query
  | report (mode : ThemeMode)
deriving DecidableEq

/-- SGR mouse reports (`csi.rs`, `enum MouseReport`): cell coordinates
(mode 1006) or pixel coordinates (mode 1016). -/
inductive MouseReport
  | sgr1006 (x : Nat) (y : Nat) (button : SgrMouseButton) (modifiers : Modifiers)
  | sgr1016 (xPixels : Nat) (yPixels : Nat) (button : SgrMouseButton) (modifiers : Modifiers)
deriving DecidableEq

/-- A parsed or outbound CSI escape sequence (`csi.rs`, `enum Csi`). -/
inductive Csi
  | sgr (s : Sgr)
  | cursor (c : Cursor)
  | edit (e : Edit)
  | mode (m : Mode)
  | mouse (report : MouseReport)
  | keyboard (k : Keyboard)
  | device (d : Device)
  | theme (t : Theme)
deriving DecidableEq

/-- DECRQSS requests (`src/src/escape/dcs.rs`, `enum DcsRequest`). -/
inductive DcsRequest
  | activeStatusDisplay
  | attributeChangeExtent
  | characterAttribute
  | conformanceLevel
  | columnsPerPage
  | linesPerPage
  | numberOfLinesPerScreen
  | statusLineType
  | leftAndRightMargins
  | topAndBottomMargins
  | graphicRendition
  | setUpLanguage
  | printerType
  | refreshRate
  | digitalPrintedDataType
  | proPrinterCharacterSet
  | communicationSpeed
  | communicationPort
  | scrollSpeed
  | cursorStyle
  | keyClickVolume
  | warningBellVolume
  | marginBellVolume
  | lockKeyStyle
  | flowControlType
  | disconnectDelayTime
  | transmitRateLimit
  | portParameter
deriving DecidableEq

/-- DECRPSS responses (`dcs.rs`, `enum DcsResponse`). -/
inductive DcsResponse
  | graphicRendition (sgrs : List Sgr)
  | cursorStyle (style : CursorStyle)
deriving DecidableEq

/-- A DCS escape sequence (`dcs.rs`, `enum Dcs`). -/
inductive Dcs
  | request (r : DcsRequest)
  | response (isRequestValid : Bool) (value : DcsResponse)
deriving DecidableEq

/-! ## Event data model (`src/src/event.rs`) -/

/-- Key event kinds (`event.rs`, `enum KeyEventKind`). -/
inductive KeyEventKind
  | press
  | release
  | repeated
deriving DecidableEq

/-- Extra key state flags (`event.rs`, `bitflags! struct KeyEventState: u8`):
`NONE = 0`, `KEYPAD = 1 << 1`, `CAPS_LOCK = 1 << 2`, `NUM_LOCK = 1 << 3`. -/
structure KeyEventState where
  bits : Nat
deriving DecidableEq

def KeyEventState.NONE : KeyEventState := ⟨0⟩

def KeyEventState.KEYPAD : KeyEventState := ⟨2⟩

def KeyEventState.CAPS_LOCK : KeyEventState := ⟨4⟩

def KeyEventState.NUM_LOCK : KeyEventState := ⟨8⟩

/-- Bitflags `empty()`. -/
def KeyEventState.empty : KeyEventState := ⟨0⟩

/-- Bitflags union (the `|` operator). -/
def KeyEventState.or (a b : KeyEventState) : KeyEventState :=
  ⟨a.bits ||| b.bits⟩

/-- Modifier key codes (`event.rs`, `enum ModifierKeyCode`). -/
inductive ModifierKeyCode
  | leftShift
  | leftControl
  | leftAlt
  | leftSuper
  | leftHyper
  | leftMeta
  | rightShift
  | rightControl
  | rightAlt
  | rightSuper
  | rightHyper
  | rightMeta
  | isoLevel3Shift
  | isoLevel5Shift
deriving DecidableEq

/-- Media key codes (`event.rs`, `enum MediaKeyCode`). -/
inductive MediaKeyCode
  | play
  | pause
  | playPause
  | reverse
  | stop
  | fastForward
  | rewind
  | trackNext
  | trackPrevious
  | record
  | lowerVolume
  | raiseVolume
  | muteVolume
deriving DecidableEq

/-- Key codes (`event.rs`, `enum KeyCode`).  A Rust `char` payload is modelled
as its Unicode scalar value. -/
inductive KeyCode
  | char (c : Nat)
  | enter
  | backspace
  | tab
  | escape
  | left
  | right
  | up
  | down
  | home
  | endKey
  | backTab
  | pageUp
  | pageDown
  | insert
  | delete
  | keypadBegin
  | capsLock
  | scrollLock
  | numLock
  | printScreen
  | pause
  | menu
  | null
  | function (n : Nat)
  | modifier (m : ModifierKeyCode)
  | media (m : MediaKeyCode)
deriving DecidableEq

/-- A keyboard event (`event.rs`, `struct KeyEvent`). -/
structure KeyEvent where
  code : KeyCode
  kind : KeyEventKind
  modifiers : Modifiers
  state : KeyEventState
deriving DecidableEq

/-- `KeyEvent::new` (`event.rs` lines 52–59): a `Press` with no extra state. -/
def KeyEvent.new (code : KeyCode) (modifiers : Modifiers) : KeyEvent :=
  { code := code, kind := .press, modifiers := modifiers, state := KeyEventState.NONE }

/-- `impl From<KeyCode> for KeyEvent` (`event.rs` lines 62–71): a `Press` with
no modifiers and no extra state. -/
def KeyEvent.fromCode (code : KeyCode) : KeyEvent :=
  { code := code, kind := .press, modifiers := Modifiers.NONE, state := KeyEventState.NONE }

/-- Mouse buttons on the inbound-event side (`event.rs`, `enum MouseButton`). -/
inductive MouseButton
  | left
  | right
  | middle
deriving DecidableEq

/-- Mouse event kinds (`event.rs`, `enum MouseEventKind`). -/
inductive MouseEventKind
  | down (b : MouseButton)
  | up (b : MouseButton)
  | drag (b : MouseButton)
  | moved
  | scrollDown
  | scrollUp
  | scrollLeft
  | scrollRight
deriving DecidableEq

/-- A mouse event (`event.rs`, `struct MouseEvent`). -/
structure MouseEvent where
  kind : MouseEventKind
  column : Nat
  row : Nat
  modifiers : Modifiers
deriving DecidableEq

/-- Terminal dimensions (`src/src/lib.rs`, `struct WindowSize`). -/
structure WindowSize where
  cols : Nat
  rows : Nat
deriving DecidableEq

/-- A decoded terminal event (`event.rs`, `enum Event`). -/
inductive Event
  | key (k : KeyEvent)
  | mouse (m : MouseEvent)
  | windowResized (size : WindowSize)
  | focusIn
  | focusOut
  | paste (text : String)
  | csi (c : Csi)
  | dcs (d : Dcs)
deriving DecidableEq

/-- The decoder's internal event type.  Its definition is not part of the
sources under `src/`; the only constructor `src/src/parse.rs` ever builds or
inspects is `InternalEvent::Event`, which wraps a public `Event`, so the model
carries exactly that constructor. -/
inductive InternalEvent
  | event (e : Event)
deriving DecidableEq

/-! ## Decoder embedding (`src/src/parse.rs`)

Bytes are modelled as `Nat` values below 256.  A Rust function returning
`Result<T, MalformedSequenceError>` that may additionally panic (`todo!`,
`assert!`, `unwrap`) is modelled as `POutcome T`. -/

/-- Outcome of a fallible decoder step: `ok` mirrors `Ok`, `err` mirrors
`Err(MalformedSequenceError)`, and `panicked` records that the Rust code
would abort (a `todo!`, a failed `assert!`, or an `unwrap` of `None`). -/
inductive POutcome (α : Type)
  | ok : α → POutcome α
  | err : POutcome α
  | panicked : POutcome α
deriving DecidableEq

/-- One step of UTF-8 validation/decoding, exactly the byte-range table that
Rust's `str::from_utf8` enforces (leading-byte ranges, continuation bytes in
`0x80..=0xBF`, with the tightened second-byte ranges that exclude overlong
encodings and surrogates): returns the first scalar value and the remaining
bytes, or `none` if the front of the list is not a complete valid sequence. -/
def utf8DecodeFirst : List Nat → Option (Nat × List Nat)
  | [] => none
  | b0 :: rest =>
    if b0 ≤ 0x7F then some (b0, rest)
    else if 0xC2 ≤ b0 ∧ b0 ≤ 0xDF then
      match rest with
      | b1 :: rest1 =>
        if 0x80 ≤ b1 ∧ b1 ≤ 0xBF then
          some ((b0 - 0xC0) * 64 + (b1 - 0x80), rest1)
        else none
      | [] => none
    else if 0xE0 ≤ b0 ∧ b0 ≤ 0xEF then
      match rest with
      | b1 :: b2 :: rest2 =>
        let b1Lo : Nat := if b0 = 0xE0 then 0xA0 else 0x80
        let b1Hi : Nat := if b0 = 0xED then 0x9F else 0xBF
        if (b1Lo ≤ b1 ∧ b1 ≤ b1Hi) ∧ (0x80 ≤ b2 ∧ b2 ≤ 0xBF) then
          some ((b0 - 0xE0) * 4096 + (b1 - 0x80) * 64 + (b2 - 0x80), rest2)
        else none
      | _ => none
    else if 0xF0 ≤ b0 ∧ b0 ≤ 0xF4 then
      match rest with
      | b1 :: b2 :: b3 :: rest3 =>
        let b1Lo : Nat := if b0 = 0xF0 then 0x90 else 0x80
        let b1Hi : Nat := if b0 = 0xF4 then 0x8F else 0xBF
        if (b1Lo ≤ b1 ∧ b1 ≤ b1Hi) ∧ (0x80 ≤ b2 ∧ b2 ≤ 0xBF) ∧ (0x80 ≤ b3 ∧ b3 ≤ 0xBF) then
          some ((b0 - 0xF0) * 262144 + (b1 - 0x80) * 4096 + (b2 - 0x80) * 64 + (b3 - 0x80),
            rest3)
        else none
      | _ => none
    else none

theorem utf8DecodeFirst_shrinks :
    ∀ l cp rest, utf8DecodeFirst l = some (cp, rest) → rest.length < l.length := by
  intro l cp rest h
  match l with
  | [] => simp [utf8DecodeFirst] at h
  | b0 :: tl =>
    rw [utf8DecodeFirst.eq_def] at h
    repeat' split at h
    all_goals simp_all
    all_goals omega

/-- Fuelled decoding loop for `fromUtf8`.  One unit of fuel is spent per
decoded scalar; by `utf8DecodeFirst_shrinks` each step consumes at least one
byte, so fuel equal to the byte count always suffices and the `0, _ :: _`
arm is unreachable from `fromUtf8`. -/
def fromUtf8Loop : Nat → List Nat → Option (List Nat)
  | _, [] => some []
  | 0, _ :: _ => none
  | fuel + 1, b0 :: rest =>
    match utf8DecodeFirst (b0 :: rest) with
    | some (cp, rest') => (fromUtf8Loop fuel rest').map (cp :: ·)
    | none => none

/-- Rust's `str::from_utf8` followed by iterating `chars()`: succeeds exactly
when the whole byte list is valid UTF-8, and then yields the list of scalar
values. -/
def fromUtf8 (l : List Nat) : Option (List Nat) :=
  fromUtf8Loop l.length l

/-- Rust's `str.split(sep)` for a one-byte separator, over decoded scalar
lists: `n` separators yield `n + 1` (possibly empty) pieces, and the empty
string yields one empty piece. -/
def splitOnScalar (sep : Nat) : List Nat → List (List Nat)
  | [] => [[]]
  | b :: rest =>
    if b = sep then [] :: splitOnScalar sep rest
    else
      match splitOnScalar sep rest with
      | [] => [[b]]
      | first :: others => (b :: first) :: others

/-- Rust's `FromStr` for unsigned integers with maximum value `max`
(`u8::from_str` with `max = 255`, `u32::from_str` with `max = 2^32 - 1`):
an optional leading `+`, then one or more ASCII digits, error on anything
else or on overflow. -/
def parseUnsigned (max : Nat) (s : List Nat) : Option Nat :=
  let digits := match s with
    | 43 :: rest => rest
    | _ => s
  if digits = [] then none
  else if digits.all (fun b => decide (48 ≤ b ∧ b ≤ 57)) then
    let v := digits.foldl (fun acc b => acc * 10 + (b - 48)) 0
    if v ≤ max then some v else none
  else none

/-- `next_parsed::<T>` (`parse.rs` lines 325–333): take the iterator's next
item and parse it, failing when the iterator is exhausted or parsing fails.
The remaining items are returned alongside the value. -/
def next_parsed (max : Nat) : List (List Nat) → Option (Nat × List (List Nat))
  | [] => none
  | item :: rest => (parseUnsigned max item).map (·, rest)

/-- `modifier_and_kind_parsed` (`parse.rs` lines 335–345): split the next
`;`-separated item on `:`, parse the modifier mask as `u8`, and parse the
event-kind code as `u8` defaulting to 1 when absent or unparsable. -/
def modifier_and_kind_parsed : List (List Nat) → Option ((Nat × Nat) × List (List Nat))
  | [] => none
  | item :: rest =>
    match splitOnScalar 58 item with
    | [] => none
    | first :: subRest =>
      match parseUnsigned 255 first with
      | none => none
      | some modifierMask =>
        let kindCode := match subRest with
          | [] => 1
          | second :: _ =>
            match parseUnsigned 255 second with
            | some k => k
            | none => 1
        some ((modifierMask, kindCode), rest)

/-- `parse_modifiers` (`parse.rs` lines 468–490): subtract 1 (saturating) from
the wire mask and test the six protocol bits. -/
def parse_modifiers (mask : Nat) : Modifiers :=
  let modifierMask := mask - 1
  let m := Modifiers.empty
  let m := if modifierMask &&& 1 ≠ 0 then m.or Modifiers.SHIFT else m
  let m := if modifierMask &&& 2 ≠ 0 then m.or Modifiers.ALT else m
  let m := if modifierMask &&& 4 ≠ 0 then m.or Modifiers.CONTROL else m
  let m := if modifierMask &&& 8 ≠ 0 then m.or Modifiers.SUPER else m
  let m := if modifierMask &&& 16 ≠ 0 then m.or Modifiers.HYPER else m
  let m := if modifierMask &&& 32 ≠ 0 then m.or Modifiers.META else m
  m

/-- `parse_modifiers_to_state` (`parse.rs` lines 492–502). -/
def parse_modifiers_to_state (mask : Nat) : KeyEventState :=
  let modifierMask := mask - 1
  let s := KeyEventState.empty
  let s := if modifierMask &&& 64 ≠ 0 then s.or KeyEventState.CAPS_LOCK else s
  let s := if modifierMask &&& 128 ≠ 0 then s.or KeyEventState.NUM_LOCK else s
  s

/-- `parse_key_event_kind` (`parse.rs` lines 504–511). -/
def parse_key_event_kind (kind : Nat) : KeyEventKind :=
  if kind = 1 then .press
  else if kind = 2 then .repeated
  else if kind = 3 then .release
  else .press

/-- Rust's `char::from_u32`: defined exactly on Unicode scalar values. -/
def charFromU32 (n : Nat) : Option Nat :=
  if n < 0xD800 ∨ (0xE000 ≤ n ∧ n ≤ 0x10FFFF) then some n else none

/-- `translate_functional_key_code` (`parse.rs` lines 613–712): the fixed
lookup table from the two contiguous Kitty codepoint bands to keypad keys
(with the `KEYPAD` state flag) and to lock/media/modifier keys (with empty
state). -/
def translate_functional_key_code (codepoint : Nat) : Option (KeyCode × KeyEventState) :=
  let keypad : Option KeyCode :=
    if codepoint = 57399 then some (.char 48)
    else if codepoint = 57400 then some (.char 49)
    else if codepoint = 57401 then some (.char 50)
    else if codepoint = 57402 then some (.char 51)
    else if codepoint = 57403 then some (.char 52)
    else if codepoint = 57404 then some (.char 53)
    else if codepoint = 57405 then some (.char 54)
    else if codepoint = 57406 then some (.char 55)
    else if codepoint = 57407 then some (.char 56)
    else if codepoint = 57408 then some (.char 57)
    else if codepoint = 57409 then some (.char 46)
    else if codepoint = 57410 then some (.char 47)
    else if codepoint = 57411 then some (.char 42)
    else if codepoint = 57412 then some (.char 45)
    else if codepoint = 57413 then some (.char 43)
    else if codepoint = 57414 then some .enter
    else if codepoint = 57415 then some (.char 61)
    else if codepoint = 57416 then some (.char 44)
    else if codepoint = 57417 then some .left
    else if codepoint = 57418 then some .right
    else if codepoint = 57419 then some .up
    else if codepoint = 57420 then some .down
    else if codepoint = 57421 then some .pageUp
    else if codepoint = 57422 then some .pageDown
    else if codepoint = 57423 then some .home
    else if codepoint = 57424 then some .endKey
    else if codepoint = 57425 then some .insert
    else if codepoint = 57426 then some .delete
    else if codepoint = 57427 then some .keypadBegin
    else none
  match keypad with
  | some keycode => some (keycode, KeyEventState.KEYPAD)
  | none =>
    let other : Option KeyCode :=
      if codepoint = 57358 then some .capsLock
      else if codepoint = 57359 then some .scrollLock
      else if codepoint = 57360 then some .numLock
      else if codepoint = 57361 then some .printScreen
      else if codepoint = 57362 then some .pause
      else if codepoint = 57363 then some .menu
      else if 57376 ≤ codepoint ∧ codepoint ≤ 57398 then
        some (.function (codepoint - 57376 + 13))
      else if codepoint = 57428 then some (.media .play)
      else if codepoint = 57429 then some (.media .pause)
      else if codepoint = 57430 then some (.media .playPause)
      else if codepoint = 57431 then some (.media .reverse)
      else if codepoint = 57432 then some (.media .stop)
      else if codepoint = 57433 then some (.media .fastForward)
      else if codepoint = 57434 then some (.media .rewind)
      else if codepoint = 57435 then some (.media .trackNext)
      else if codepoint = 57436 then some (.media .trackPrevious)
      else if codepoint = 57437 then some (.media .record)
      else if codepoint = 57438 then some (.media .lowerVolume)
      else if codepoint = 57439 then some (.media .raiseVolume)
      else if codepoint = 57440 then some (.media .muteVolume)
      else if codepoint = 57441 then some (.modifier .leftShift)
      else if codepoint = 57442 then some (.modifier .leftControl)
      else if codepoint = 57443 then some (.modifier .leftAlt)
      else if codepoint = 57444 then some (.modifier .leftSuper)
      else if codepoint = 57445 then some (.modifier .leftHyper)
      else if codepoint = 57446 then some (.modifier .leftMeta)
      else if codepoint = 57447 then some (.modifier .rightShift)
      else if codepoint = 57448 then some (.modifier .rightControl)
      else if codepoint = 57449 then some (.modifier .rightAlt)
      else if codepoint = 57450 then some (.modifier .rightSuper)
      else if codepoint = 57451 then some (.modifier .rightHyper)
      else if codepoint = 57452 then some (.modifier .rightMeta)
      else if codepoint = 57453 then some (.modifier .isoLevel3Shift)
      else if codepoint = 57454 then some (.modifier .isoLevel5Shift)
      else none
    match other with
    | some keycode => some (keycode, KeyEventState.empty)
    | none => none

/-- Byte slice `buffer[2 .. buffer.len() - 1]`, the parameter bytes between
the `ESC [` introducer and the final byte of a CSI sequence. -/
def csiParamBytes (buffer : List Nat) : List Nat :=
  (buffer.drop 2).take (buffer.length - 3)

/-- `parse_csi_u_encoded_key_code` (`parse.rs` lines 347–466): parse
`CSI … u` sequences in the plain `CSI u` or the Kitty keyboard protocol
framing.  The two leading `assert!`s are modelled as panics. -/
def parse_csi_u_encoded_key_code (buffer : List Nat) : POutcome (Option InternalEvent) :=
  if ¬ (buffer.head? = some 27) then .panicked
  else if ¬ (buffer.getLast? = some 117) then .panicked
  else
    match fromUtf8 (csiParamBytes buffer) with
    | none => .err
    | some s =>
      match splitOnScalar 59 s with
      | [] => .err
      | firstItem :: split1 =>
        match splitOnScalar 58 firstItem with
        | [] => .err
        | cp0 :: codepointsRest =>
          match parseUnsigned 4294967295 cp0 with
          | none => .err
          | some codepoint =>
            let (modifiers0, kind, stateFromModifiers) :=
              match modifier_and_kind_parsed split1 with
              | some ((modifierMask, kindCode), _) =>
                (parse_modifiers modifierMask, parse_key_event_kind kindCode,
                  parse_modifiers_to_state modifierMask)
              | none => (Modifiers.NONE, KeyEventKind.press, KeyEventState.NONE)
            let translated : Option (KeyCode × KeyEventState) :=
              match translate_functional_key_code codepoint with
              | some (specialKeyCode, state) => some (specialKeyCode, state)
              | none =>
                match charFromU32 codepoint with
                | some c =>
                  some
                    (if c = 0x1B then KeyCode.escape
                     else if c = 13 then KeyCode.enter
                     else if c = 9 then
                       (if modifiers0.contains Modifiers.SHIFT then KeyCode.backTab
                        else KeyCode.tab)
                     else if c = 0x7F then KeyCode.backspace
                     else KeyCode.char c,
                     KeyEventState.empty)
                | none => none
            match translated with
            | none => .err
            | some (code0, stateFromKeycode) =>
              let modifiers1 :=
                match code0 with
                | .modifier .leftAlt | .modifier .rightAlt =>
                  modifiers0.set Modifiers.ALT true
                | .modifier .leftControl | .modifier .rightControl =>
                  modifiers0.set Modifiers.CONTROL true
                | .modifier .leftShift | .modifier .rightShift =>
                  modifiers0.set Modifiers.SHIFT true
                | .modifier .leftSuper | .modifier .rightSuper =>
                  modifiers0.set Modifiers.SUPER true
                | .modifier .leftHyper | .modifier .rightHyper =>
                  modifiers0.set Modifiers.HYPER true
                | .modifier .leftMeta | .modifier .rightMeta =>
                  modifiers0.set Modifiers.META true
                | _ => modifiers0
              let (code1, modifiers2) :=
                if modifiers1.contains Modifiers.SHIFT then
                  match codepointsRest with
                  | shifted :: _ =>
                    match (parseUnsigned 4294967295 shifted).bind charFromU32 with
                    | some shiftedC =>
                      (KeyCode.char shiftedC, modifiers1.set Modifiers.SHIFT false)
                    | none => (code0, modifiers1)
                  | [] => (code0, modifiers1)
                else (code0, modifiers1)
              .ok (some (.event (.key
                { code := code1, kind := kind, modifiers := modifiers2,
                  state := stateFromKeycode.or stateFromModifiers })))

/-- `parse_csi_modifier_key_code` (`parse.rs` lines 513–564): a CSI sequence
whose final byte names a cursor or function key, with the modifier mask taken
from the second `;`-separated parameter or, failing that, from the
second-to-last byte as a single digit. -/
def parse_csi_modifier_key_code (buffer : List Nat) : POutcome (Option InternalEvent) :=
  if ¬ (buffer.take 2 = [27, 91]) then .panicked
  else
    match fromUtf8 (csiParamBytes buffer) with
    | none => .err
    | some s =>
      let split := splitOnScalar 59 s
      let split1 := split.drop 1
      let parsedModifiers : POutcome (Modifiers × KeyEventKind) :=
        match modifier_and_kind_parsed split1 with
        | some ((modifierMask, kindCode), _) =>
          .ok (parse_modifiers modifierMask, parse_key_event_kind kindCode)
        | none =>
          if buffer.length > 3 then
            match buffer.get? (buffer.length - 2) with
            | none => .panicked
            | some b =>
              if 48 ≤ b ∧ b ≤ 57 then .ok (parse_modifiers (b - 48), KeyEventKind.press)
              else .err
          else .ok (Modifiers.NONE, KeyEventKind.press)
      match parsedModifiers with
      | .err => .err
      | .panicked => .panicked
      | .ok (modifiers, kind) =>
        match buffer.getLast? with
        | none => .panicked
        | some key =>
          let code : Option KeyCode :=
            if key = 65 then some .up
            else if key = 66 then some .down
            else if key = 67 then some .right
            else if key = 68 then some .left
            else if key = 70 then some .endKey
            else if key = 72 then some .home
            else if key = 80 then some (.function 1)
            else if key = 81 then some (.function 2)
            else if key = 82 then some (.function 3)
            else if key = 83 then some (.function 4)
            else none
          match code with
          | none => .err
          | some code =>
            .ok (some (.event (.key
              { code := code, kind := kind, modifiers := modifiers,
                state := KeyEventState.NONE })))

/-- `parse_csi_special_key_code` (`parse.rs` lines 566–611): a
tilde-terminated CSI sequence carrying a numeric special-key code plus
optional modifier/kind parameters. -/
def parse_csi_special_key_code (buffer : List Nat) : POutcome (Option InternalEvent) :=
  if ¬ (buffer.take 2 = [27, 91]) then .panicked
  else if ¬ (buffer.getLast? = some 126) then .panicked
  else
    match fromUtf8 (csiParamBytes buffer) with
    | none => .err
    | some s =>
      let split := splitOnScalar 59 s
      match next_parsed 255 split with
      | none => .err
      | some (first, split1) =>
        let (modifiers, kind, state) :=
          match modifier_and_kind_parsed split1 with
          | some ((modifierMask, kindCode), _) =>
            (parse_modifiers modifierMask, parse_key_event_kind kindCode,
              parse_modifiers_to_state modifierMask)
          | none => (Modifiers.NONE, KeyEventKind.press, KeyEventState.NONE)
        let code : Option KeyCode :=
          if first = 1 ∨ first = 7 then some .home
          else if first = 2 then some .insert
          else if first = 3 then some .delete
          else if first = 4 ∨ first = 8 then some .endKey
          else if first = 5 then some .pageUp
          else if first = 6 then some .pageDown
          else if 11 ≤ first ∧ first ≤ 15 then some (.function (first - 10))
          else if 17 ≤ first ∧ first ≤ 21 then some (.function (first - 11))
          else if 23 ≤ first ∧ first ≤ 26 then some (.function (first - 12))
          else if 28 ≤ first ∧ first ≤ 29 then some (.function (first - 15))
          else if 31 ≤ first ∧ first ≤ 34 then some (.function (first - 17))
          else none
        match code with
        | none => .err
        | some code =>
          .ok (some (.event (.key
            { code := code, kind := kind, modifiers := modifiers, state := state })))

/-- `parse_utf8_char` (`parse.rs` lines 223–252): try full UTF-8 decoding of
the buffer; on failure, classify the leading byte, check that all later bytes
are continuation bytes, and report "incomplete" (`ok none`) only when the
buffer is still shorter than the leading byte requires.  The `assert!` on a
non-empty buffer and the `unwrap` of the first decoded char are panics. -/
def parse_utf8_char (buffer : List Nat) : POutcome (Option Nat) :=
  match buffer with
  | [] => .panicked
  | b0 :: rest =>
    match fromUtf8 (b0 :: rest) with
    | some (c :: _) => .ok (some c)
    | some [] => .panicked
    | none =>
      let requiredBytes : Option Nat :=
        if b0 ≤ 0x7F then some 1
        else if 0xC0 ≤ b0 ∧ b0 ≤ 0xDF then some 2
        else if 0xE0 ≤ b0 ∧ b0 ≤ 0xEF then some 3
        else if 0xF0 ≤ b0 ∧ b0 ≤ 0xF7 then some 4
        else none
      match requiredBytes with
      | none => .err
      | some required =>
        if required > 1 ∧ rest.length + 1 > 1 then
          if rest.all (fun b => b &&& 192 == 128) then
            (if rest.length + 1 < required then .ok none else .err)
          else .err
        else
          (if rest.length + 1 < required then .ok none else .err)

/-- `parse_csi` (`parse.rs` lines 254–323): dispatch a `ESC [ …` sequence on
its third byte.  The leading `assert!` is a panic when the buffer does not
start with `ESC [`, and the `b'M'`/`b'<'` mouse arms are `todo!()` panics in
the source. -/
def parse_csi (buffer : List Nat) : POutcome (Option InternalEvent) :=
  match buffer with
  | 27 :: 91 :: rest =>
    match rest with
    | [] => .ok none
    | b2 :: rest2 =>
      if b2 = 91 then
        match rest2.head? with
        | none => .ok none
        | some b =>
          if 65 ≤ b ∧ b ≤ 69 then
            .ok (some (.event (.key (KeyEvent.fromCode (.function (1 + b - 65))))))
          else .err
      else if b2 = 68 then .ok (some (.event (.key (KeyEvent.fromCode .left))))
      else if b2 = 67 then .ok (some (.event (.key (KeyEvent.fromCode .right))))
      else if b2 = 65 then .ok (some (.event (.key (KeyEvent.fromCode .up))))
      else if b2 = 66 then .ok (some (.event (.key (KeyEvent.fromCode .down))))
      else if b2 = 72 then .ok (some (.event (.key (KeyEvent.fromCode .home))))
      else if b2 = 70 then .ok (some (.event (.key (KeyEvent.fromCode .endKey))))
      else if b2 = 90 then
        .ok (some (.event (.key
          { code := .backTab, kind := .press, modifiers := Modifiers.SHIFT,
            state := KeyEventState.NONE })))
      else if b2 = 77 then .panicked
      else if b2 = 60 then .panicked
      else if b2 = 73 then .ok (some (.event .focusIn))
      else if b2 = 79 then .ok (some (.event .focusOut))
      else if b2 = 59 then parse_csi_modifier_key_code buffer
      else if b2 = 80 then .ok (some (.event (.key (KeyEvent.fromCode (.function 1)))))
      else if b2 = 81 then .ok (some (.event (.key (KeyEvent.fromCode (.function 2)))))
      else if b2 = 83 then .ok (some (.event (.key (KeyEvent.fromCode (.function 4)))))
      else if 48 ≤ b2 ∧ b2 ≤ 57 then
        match rest2 with
        | [] => .ok none
        | _ :: _ =>
          match buffer.getLast? with
          | none => .panicked
          | some lastByte =>
            if ¬ (64 ≤ lastByte ∧ lastByte ≤ 126) then .ok none
            else if lastByte = 126 then parse_csi_special_key_code buffer
            else if lastByte = 117 then parse_csi_u_encoded_key_code buffer
            else parse_csi_modifier_key_code buffer
      else .err
  | _ => .panicked

/-- `parse_event` (`parse.rs` lines 119–221): dispatch one candidate buffer.
The `isUppercase` parameter models Rust's `char::is_uppercase` Unicode
property, an external collaborator from the standard library. -/
def parse_event (isUppercase : Nat → Bool) (buffer : List Nat) (maybeMore : Bool) :
    POutcome (Option InternalEvent) :=
  match buffer with
  | [] => .ok none
  | b0 :: rest =>
    if b0 = 27 then
      match rest with
      | [] =>
        if maybeMore then .ok none
        else .ok (some (.event (.key (KeyEvent.fromCode .escape))))
      | b1 :: rest2 =>
        if b1 = 79 then
          match rest2 with
          | [] => .ok none
          | b2 :: _ =>
            if b2 = 68 then .ok (some (.event (.key (KeyEvent.fromCode .left))))
            else if b2 = 67 then .ok (some (.event (.key (KeyEvent.fromCode .right))))
            else if b2 = 65 then .ok (some (.event (.key (KeyEvent.fromCode .up))))
            else if b2 = 66 then .ok (some (.event (.key (KeyEvent.fromCode .down))))
            else if b2 = 72 then .ok (some (.event (.key (KeyEvent.fromCode .home))))
            else if b2 = 70 then .ok (some (.event (.key (KeyEvent.fromCode .endKey))))
            else if 80 ≤ b2 ∧ b2 ≤ 83 then
              .ok (some (.event (.key (KeyEvent.fromCode (.function (1 + b2 - 80))))))
            else .err
        else if b1 = 91 then parse_csi (b0 :: b1 :: rest2)
        else if b1 = 27 then .ok (some (.event (.key (KeyEvent.fromCode .escape))))
        else
          match parse_event isUppercase rest maybeMore with
          | .ok (some (.event (.key keyEvent))) =>
            .ok (some (.event (.key
              { keyEvent with modifiers := keyEvent.modifiers.or Modifiers.ALT })))
          | other => other
    else if b0 = 13 then .ok (some (.event (.key (KeyEvent.fromCode .enter))))
    else if b0 = 9 then .ok (some (.event (.key (KeyEvent.fromCode .tab))))
    else if b0 = 127 then .ok (some (.event (.key (KeyEvent.fromCode .backspace))))
    else if b0 = 0 then
      .ok (some (.event (.key (KeyEvent.new (.char 32) Modifiers.CONTROL))))
    else if 1 ≤ b0 ∧ b0 ≤ 26 then
      .ok (some (.event (.key (KeyEvent.new (.char (b0 - 1 + 97)) Modifiers.CONTROL))))
    else if 28 ≤ b0 ∧ b0 ≤ 31 then
      .ok (some (.event (.key (KeyEvent.new (.char (b0 - 28 + 52)) Modifiers.CONTROL))))
    else
      match parse_utf8_char (b0 :: rest) with
      | .ok (some ch) =>
        .ok (some (.event (.key (KeyEvent.new (.char ch)
          (if isUppercase ch then Modifiers.SHIFT else Modifiers.NONE)))))
      | .ok none => .ok none
      | .err => .err
      | .panicked => .panicked

/-- The incremental decoder state (`parse.rs`, `struct Parser`): the
accumulation buffer of undecoded bytes and the FIFO of decoded events. -/
structure Parser where
  buffer : List Nat
  events : List InternalEvent
deriving DecidableEq

/-- `Parser::default` (`parse.rs` lines 18–25): empty buffer, no events. -/
def Parser.default : Parser :=
  { buffer := [], events := [] }

/-- `Parser::pop` (`parse.rs` lines 29–31): remove and return the front of
the event FIFO. -/
def Parser.pop (p : Parser) : Option InternalEvent × Parser :=
  match p.events with
  | [] => (none, p)
  | e :: rest => (some e, { p with events := rest })

/-- The `for n in 0..self.buffer.len()` loop of `Parser::process_bytes`
(`parse.rs` lines 40–57).  `fuel` counts the remaining loop iterations
(initially `buffer.length`), `n` is the loop index, `start` the index after
the last consumed prefix, `acc` the events pushed so far.  Each iteration
parses the slice `buffer[start..n + 1]` with
`maybe_more || n + 1 < buffer.len()`. -/
def processLoop (isUppercase : Nat → Bool) (maybeMore : Bool) (buffer : List Nat) :
    Nat → Nat → Nat → List InternalEvent → POutcome (Nat × List InternalEvent)
  | 0, _, start, acc => .ok (start, acc)
  | fuel + 1, n, start, acc =>
    match parse_event isUppercase ((buffer.drop start).take (n + 1 - start))
        (maybeMore || decide (n + 1 < buffer.length)) with
    | .ok (some event) =>
      processLoop isUppercase maybeMore buffer fuel (n + 1) (n + 1) (acc ++ [event])
    | .ok none => processLoop isUppercase maybeMore buffer fuel (n + 1) start acc
    | .err => processLoop isUppercase maybeMore buffer fuel (n + 1) (n + 1) acc
    | .panicked => .panicked

/-- `Parser::process_bytes` (`parse.rs` lines 40–57) followed by
`Parser::advance` (lines 59–66): run the scan loop over the whole buffer,
append the produced events to the FIFO, and remove the consumed prefix
(`rotate_left(len)` plus `truncate` is exactly `List.drop len`). -/
def Parser.process_bytes (isUppercase : Nat → Bool) (p : Parser) (maybeMore : Bool) :
    POutcome Parser :=
  match processLoop isUppercase maybeMore p.buffer p.buffer.length 0 0 [] with
  | .ok (start, acc) => .ok { buffer := p.buffer.drop start, events := p.events ++ acc }
  | .err => .err
  | .panicked => .panicked

/-- `Parser::parse` (`parse.rs` lines 34–38): extend the accumulation buffer
with the new bytes, then process. -/
def Parser.parse (isUppercase : Nat → Bool) (p : Parser) (bytes : List Nat)
    (maybeMore : Bool) : POutcome Parser :=
  Parser.process_bytes isUppercase { p with buffer := p.buffer ++ bytes } maybeMore

/-! ## Encoder fragments (`src/src/escape/csi.rs`, `Display` impls)

The encoder writes decimal text; output is modelled as the list of bytes the
`Display` implementations emit. -/

/-- Decimal digits of `n` in ASCII, accumulator form. -/
def natToDigitsLoop : Nat → Nat → List Nat → List Nat
  | 0, _, acc => acc
  | fuel + 1, n, acc =>
    if n = 0 then acc else natToDigitsLoop fuel (n / 10) ((48 + n % 10) :: acc)

/-- ASCII decimal rendering of a nonnegative integer, as Rust's `Display`
for unsigned integers produces it. -/
def natToDecimalBytes (n : Nat) : List Nat :=
  if n = 0 then [48] else natToDigitsLoop (n + 1) n []

/-- The button-code component of an SGR mouse report
(`csi.rs` lines 878–890 and 922–934): press/release codes 0–2 and 64–67,
drag codes 32–34, motion code 35. -/
def SgrMouseButton.code : SgrMouseButton → Nat
  | .button1Press | .button1Release => 0
  | .button2Press | .button2Release => 1
  | .button3Press | .button3Release => 2
  | .button4Press | .button4Release => 64
  | .button5Press | .button5Release => 65
  | .button6Press | .button6Release => 66
  | .button7Press | .button7Release => 67
  | .button1Drag => 32
  | .button2Drag => 33
  | .button3Drag => 34
  | .none => 35

/-- The trailer of an SGR mouse report (`csi.rs` lines 891–902 and 935–946):
`M` (0x4D) for presses, drags and motion, `m` (0x6D) for releases. -/
def SgrMouseButton.trailer : SgrMouseButton → Nat
  | .button1Press | .button2Press | .button3Press | .button4Press | .button5Press
  | .button1Drag | .button2Drag | .button3Drag | .none => 77
  | _ => 109

/-- `<MouseReport as Display>::fmt` (`csi.rs` lines 858–951): accumulate the
modifier bits (`|= 4` for shift, `|= 8` for alt, `|= 16` for control), `|` in
the button code, then write `<{b};{x};{y}{trailer}`. -/
def MouseReport.fmtBytes : MouseReport → List Nat
  | .sgr1006 x y button modifiers =>
    let b : Nat := 0
    let b := if ¬ (modifiers.and Modifiers.SHIFT = Modifiers.NONE) then b ||| 4 else b
    let b := if ¬ (modifiers.and Modifiers.ALT = Modifiers.NONE) then b ||| 8 else b
    let b := if ¬ (modifiers.and Modifiers.CONTROL = Modifiers.NONE) then b ||| 16 else b
    let b := b ||| button.code
    [60] ++ natToDecimalBytes b ++ [59] ++ natToDecimalBytes x ++ [59] ++
      natToDecimalBytes y ++ [button.trailer]
  | .sgr1016 xPixels yPixels button modifiers =>
    let b : Nat := 0
    let b := if ¬ (modifiers.and Modifiers.SHIFT = Modifiers.NONE) then b ||| 4 else b
    let b := if ¬ (modifiers.and Modifiers.ALT = Modifiers.NONE) then b ||| 8 else b
    let b := if ¬ (modifiers.and Modifiers.CONTROL = Modifiers.NONE) then b ||| 16 else b
    let b := b ||| button.code
    [60] ++ natToDecimalBytes b ++ [59] ++ natToDecimalBytes xPixels ++ [59] ++
      natToDecimalBytes yPixels ++ [button.trailer]

/-- Bytes emitted by `<Csi as Display>::fmt` (`csi.rs` lines 36–51) for a
`Csi::Mouse` value: the `ESC [` introducer followed by the report body. -/
def csiMouseBytes (report : MouseReport) : List Nat :=
  [27, 91] ++ report.fmtBytes

/-- Body written by `<Cursor as Display>::fmt` for
`Cursor::ActivePositionReport` (`csi.rs` line 346): `{line};{col}R`, with the
`OneBased` coordinates displayed as their stored values. -/
def cursorActivePositionReportBytes (line col : OneBased) : List Nat :=
  natToDecimalBytes line.get ++ [59] ++ natToDecimalBytes col.get ++ [82]

/-- Bytes emitted by `<Csi as Display>::fmt` (`csi.rs` lines 36–51) for a
`Csi::Cursor (Cursor::ActivePositionReport …)` value: the `ESC [` introducer
followed by the report body. -/
def csiCursorActivePositionReportBytes (line col : OneBased) : List Nat :=
  [27, 91] ++ cursorActivePositionReportBytes line col

/-! ## The shared event queue (`src/src/event/reader.rs`)

`Shared` holds the event FIFO and the persistent `skipped_events` scratch
list.  The platform event source is an external collaborator
(`EventSource::try_read`); a run of the system is modelled against a script
of `try_read` outcomes, consumed in order.  `PollTimeout` (from
`event/source.rs`) reduces to the boolean `elapsed()` sampled once per loop
iteration: a `None` timeout is never elapsed, a zero timeout is elapsed from
the first sample, and a positive timeout elapses at some iteration; the
model takes the whole sample schedule as a function of the iteration
index. -/

/-- One outcome of `EventSource::try_read`: an event (`Ok(Some(_))`), no data
within the leftover timeout (`Ok(None)`), the benign interruption used for
wakes (`Err` of kind `Interrupted`), or any other I/O error. -/
inductive SourceItem
  | event (e : Event)
  | noData
  | interrupted
  | ioError
deriving DecidableEq

/-- Result of `Shared::poll`: `ok` mirrors `Ok(bool)`, `ioError` mirrors a
propagated `Err`, and `blocked` marks a run whose script ran out while the
code would still be blocking inside `try_read` (the call has not returned). -/
inductive PollResult
  | ok (matched : Bool)
  | ioError
  | blocked
deriving DecidableEq

/-- The state behind the reader's mutex (`reader.rs`, `struct Shared`):
the event FIFO and the `skipped_events` scratch field. -/
structure Shared where
  events : List Event
  skipped_events : List Event
deriving DecidableEq

/-- The `loop` of `Shared::poll` (`reader.rs` lines 86–111).  Per iteration:
draw one `try_read` outcome from the script; a matching event ends the loop
(drain the scratch into the FIFO, push the match to the front, return true);
a non-matching event is pushed onto the scratch; an `Interrupted` error
returns `Ok(false)` at once — without draining the scratch; any other error
propagates; otherwise, when `timeout.elapsed()` the scratch is drained and
the loop returns false, else it continues. -/
def Shared.pollLoop (filter : Event → Bool) (elapsed : Nat → Bool) :
    List SourceItem → Nat → Shared → PollResult × Shared × List SourceItem
  | [], _, sh => (.blocked, sh, [])
  | item :: script, i, sh =>
    match item with
    | .interrupted => (.ok false, sh, script)
    | .ioError => (.ioError, sh, script)
    | .event e =>
      if filter e then
        (.ok true,
          { sh with events := e :: (sh.events ++ sh.skipped_events), skipped_events := [] },
          script)
      else
        let sh' : Shared := { sh with skipped_events := sh.skipped_events ++ [e] }
        if elapsed i then
          (.ok false,
            { sh' with events := sh'.events ++ sh'.skipped_events, skipped_events := [] },
            script)
        else Shared.pollLoop filter elapsed script (i + 1) sh'
    | .noData =>
      if elapsed i then
        (.ok false,
          { sh with events := sh.events ++ sh.skipped_events, skipped_events := [] },
          script)
      else Shared.pollLoop filter elapsed script (i + 1) sh

/-- `Shared::poll` (`reader.rs` lines 76–112): return true immediately when a
buffered event matches, otherwise enter the draw loop. -/
def Shared.poll (filter : Event → Bool) (elapsed : Nat → Bool) (sh : Shared)
    (script : List SourceItem) : PollResult × Shared × List SourceItem :=
  if sh.events.any filter then (.ok true, sh, script)
  else Shared.pollLoop filter elapsed script 0 sh

/-- Result of `Shared::read`: an event, a propagated I/O error, a run blocked
inside `try_read`, or exhaustion of the loop fuel. -/
inductive ReadResult
  | ok (e : Event)
  | ioError
  | blocked
  | outOfFuel
deriving DecidableEq

/-- The inner `while let Some(event) = self.events.pop_front()` loop of
`Shared::read` (`reader.rs` lines 121–128): pop buffered events front to
back; the first match is returned together with the new FIFO — the remainder
followed by the locally skipped events appended at the back
(`self.events.extend(skipped_events.drain(..))`); when nothing matches, the
FIFO is empty and the local skipped list holds every popped event. -/
def readScan (filter : Event → Bool) :
    List Event → List Event → Option (Event × List Event) × List Event
  | skipped, [] => (none, skipped)
  | skipped, e :: rest =>
    if filter e then (some (e, rest ++ skipped), [])
    else readScan filter (skipped ++ [e]) rest

/-- `Shared::read` (`reader.rs` lines 114–131): scan the FIFO; when nothing
buffered matches, call `self.poll(None, …)` — a `None` timeout, whose
`PollTimeout::elapsed()` is always false — and scan again.  `fuel` bounds
the number of outer loop iterations; a propagated poll error aborts the
call, dropping the local skipped list exactly as the `?` in the source
does. -/
def Shared.read (filter : Event → Bool) :
    Nat → Shared → List Event → List SourceItem → ReadResult × Shared × List SourceItem
  | 0, sh, _, script => (.outOfFuel, sh, script)
  | fuel + 1, sh, localSkipped, script =>
    match readScan filter localSkipped sh.events with
    | (some (e, events'), _) => (.ok e, { sh with events := events' }, script)
    | (none, localSkipped') =>
      match Shared.poll filter (fun _ => false) { sh with events := [] } script with
      | (.ok _, sh', script') =>
        Shared.read filter fuel sh' localSkipped' script'
      | (.ioError, sh', script') => (.ioError, sh', script')
      | (.blocked, sh', script') => (.blocked, sh', script')

/-! ## Claim theorems -/

/-- C4: the six modifier flags are not a bitset of pairwise distinct members.
`SHIFT`, `ALT`, `CONTROL` and `SUPER` are pairwise distinct and distinct from
`HYPER`, but `event.rs` assigns `1 << 5` to both `HYPER` and `META`, so the
hyper flag equals the meta flag, contradicting the claim at exactly that
pair. -/
theorem modifiers_hyper_equals_meta :
    Modifiers.HYPER = Modifiers.META ∧
    Modifiers.HYPER.bits = 32 ∧ Modifiers.META.bits = 32 ∧
    Modifiers.SHIFT ≠ Modifiers.ALT ∧ Modifiers.SHIFT ≠ Modifiers.CONTROL ∧
    Modifiers.SHIFT ≠ Modifiers.SUPER ∧ Modifiers.SHIFT ≠ Modifiers.HYPER ∧
    Modifiers.ALT ≠ Modifiers.CONTROL ∧ Modifiers.ALT ≠ Modifiers.SUPER ∧
    Modifiers.ALT ≠ Modifiers.HYPER ∧ Modifiers.CONTROL ≠ Modifiers.SUPER ∧
    Modifiers.CONTROL ≠ Modifiers.HYPER ∧ Modifiers.SUPER ≠ Modifiers.HYPER := by
  decide

/-- C10 counterexample: at the zero-based input 65535 (`u16::MAX`), the
`n + 1` inside `from_zero_based` wraps to 0, so the stored value is zero and
does not represent the one-based value `n + 1 = 65536` — refuting the
claim's "for every zero-based n" at this input. -/
theorem one_based_from_zero_based_wraps :
    (OneBased.from_zero_based 65535).value = 0 ∧
    (OneBased.from_zero_based 65535).get ≠ 65535 + 1 := by
  decide

/-- C10 (amended): for every `u16` input, `OneBased::new n` is `None` exactly
when `n = 0` and otherwise stores a value whose `get` is `n`; and for every
zero-based `n` strictly below 65535, `from_zero_based n` represents the
one-based value `n + 1`, `get_zero_based` inverts it, and the stored value is
nonzero. -/
theorem one_based_conversions (n : Nat) (hu : n < 65536) :
    (OneBased.new n = none ↔ n = 0) ∧
    (n ≠ 0 → ∃ ob, OneBased.new n = some ob ∧ ob.get = n) ∧
    (n < 65535 →
      (OneBased.from_zero_based n).get = n + 1 ∧
      (OneBased.from_zero_based n).get_zero_based = n ∧
      (OneBased.from_zero_based n).value ≠ 0) := by
  refine ⟨by simp [OneBased.new], fun h => ⟨⟨n⟩, by simp [OneBased.new, h, OneBased.get]⟩,
    fun h => ⟨?_, ?_, ?_⟩⟩
  · simp only [OneBased.from_zero_based, OneBased.get]
    omega
  · simp only [OneBased.from_zero_based, OneBased.get_zero_based, OneBased.get]
    omega
  · simp only [OneBased.from_zero_based]
    omega

/-- C10 witness: the amended conversion theorem applied at the concrete
input 41. -/
theorem one_based_conversions_witness :
    (OneBased.new 41 = none ↔ (41 : Nat) = 0) ∧
    ((41 : Nat) ≠ 0 → ∃ ob, OneBased.new 41 = some ob ∧ ob.get = 41) ∧
    ((41 : Nat) < 65535 →
      (OneBased.from_zero_based 41).get = 41 + 1 ∧
      (OneBased.from_zero_based 41).get_zero_based = 41 ∧
      (OneBased.from_zero_based 41).value ≠ 0) :=
  one_based_conversions 41 (by decide)

/-- C7: a lone `ESC` byte fed to a fresh decoder with `maybe_more = true`
produces no event and is retained in the accumulation buffer; the same byte
fed with `maybe_more = false` produces exactly one standalone Escape key
press and empties the buffer. -/
theorem lone_escape_resolution (isUppercase : Nat → Bool) :
    Parser.parse isUppercase Parser.default [27] true
      = .ok { buffer := [27], events := [] } ∧
    Parser.parse isUppercase Parser.default [27] false
      = .ok { buffer := [],
              events := [.event (.key (KeyEvent.fromCode .escape))] } := by
  exact ⟨rfl, rfl⟩

/-- C1: the decoder is not panic-free on untrusted input.  The mouse-report
introducers `ESC [ M` and `ESC [ <` drive `parse_csi` into the
`todo!("normal mouse")` and `todo!("SGR mouse")` arms (`parse.rs` lines
277–278), which panic, and the panic propagates through `parse_event` and
`Parser::parse`. -/
theorem mouse_introducers_panic (isUppercase : Nat → Bool) (maybeMore : Bool) :
    parse_event isUppercase [27, 91, 77] maybeMore = .panicked ∧
    parse_event isUppercase [27, 91, 60] maybeMore = .panicked ∧
    Parser.parse isUppercase Parser.default [27, 91, 77] maybeMore = .panicked ∧
    Parser.parse isUppercase Parser.default [27, 91, 60] maybeMore = .panicked := by
  cases maybeMore <;> exact ⟨rfl, rfl, rfl, rfl⟩

/-- C3: the encoder renders `Cursor::ActivePositionReport { line: 24, col:
80 }` as the bytes of `ESC [ 2 4 ; 8 0 R`, but the decoder does not return a
cursor-position report for those bytes: the `b'R' =>
parse_csi_cursor_position` arm is commented out in `parse_csi` (`parse.rs`
line 314), so the sequence falls through to `parse_csi_modifier_key_code`
and comes back as an F3 key press with modifier bits 30
(shift+alt+control+super, decoded from the column parameter 80). -/
theorem cursor_position_report_misparsed (isUppercase : Nat → Bool) (maybeMore : Bool) :
    csiCursorActivePositionReportBytes ⟨24⟩ ⟨80⟩
      = [27, 91, 50, 52, 59, 56, 48, 82] ∧
    parse_event isUppercase [27, 91, 50, 52, 59, 56, 48, 82] maybeMore
      = .ok (some (.event (.key
          { code := .function 3, kind := .press, modifiers := ⟨30⟩,
            state := KeyEventState.NONE }))) := by
  exact ⟨rfl, rfl⟩

/-- C6: the encoder maps a drag of button 2 with Shift+Control held to the
SGR parameter `33 ||| 4 ||| 16 = 53` (bytes `ESC [ < 5 3 ; 1 0 ; 2 0 M` at
x = 10, y = 20), as the protocol sum demands — but feeding those bytes back
to the decoder panics in the `todo!("SGR mouse")` arm instead of producing a
drag event, so the decode half of the claim fails. -/
theorem sgr_mouse_drag_encode_decode (isUppercase : Nat → Bool) (maybeMore : Bool) :
    SgrMouseButton.button2Drag.code = 33 ∧
    csiMouseBytes (.sgr1006 10 20 .button2Drag (Modifiers.SHIFT.or Modifiers.CONTROL))
      = [27, 91, 60, 53, 51, 59, 49, 48, 59, 50, 48, 77] ∧
    parse_event isUppercase [27, 91, 60, 53, 51, 59, 49, 48, 59, 50, 48, 77] maybeMore
      = .panicked := by
  exact ⟨rfl, by decide, rfl⟩

/-- Scanning a buffer whose first match is `ev`: the events popped before the
match end up appended behind both the remainder and any previously skipped
events. -/
theorem readScan_first_match (filter : Event → Bool) (ev : Event) (post : List Event)
    (hev : filter ev = true) :
    ∀ (pre skipped : List Event), (∀ e ∈ pre, filter e = false) →
    readScan filter skipped (pre ++ ev :: post) = (some (ev, post ++ (skipped ++ pre)), []) := by
  intro pre
  induction pre with
  | nil =>
    intro skipped _
    simp [readScan, hev]
  | cons e pre ih =>
    intro skipped hpre
    have he : filter e = false := hpre e (by simp)
    have hrest : ∀ x ∈ pre, filter x = false := fun x hx => hpre x (by simp [hx])
    simp only [List.cons_append, readScan, he, Bool.false_eq_true, if_false, List.append_eq]
    rw [ih (skipped ++ [e]) hrest]
    simp

/-- C2 counterexample: a `read` whose predicate matches only the middle of
three buffered events returns that event but leaves the buffer as
`[e3, e1]` — the skipped event `e1` is re-appended at the back
(`reader.rs` line 123), behind `e3`, so the other buffered events are not
left in their original relative order `[e1, e3]`. -/
theorem read_reorders_skipped_events :
    Shared.read (fun e => match e with | .key _ => true | _ => false) 1
        { events := [.focusIn, .key (KeyEvent.fromCode .escape), .focusOut],
          skipped_events := [] } [] []
      = (.ok (.key (KeyEvent.fromCode .escape)),
         { events := [.focusOut, .focusIn], skipped_events := [] }, []) ∧
    ([Event.focusOut, Event.focusIn] : List Event) ≠ [Event.focusIn, Event.focusOut] := by
  decide

/-- C2 (amended): when the buffer holds `pre ++ ev :: post` with `ev` the
first event matching the predicate, `read` removes and returns exactly `ev`
without touching the byte source, and retains every other buffered event
exactly once — but in the order `post ++ pre`: the events that preceded the
match are moved behind the events that followed it (order is preserved
within each of the two segments, not globally).  Consequently interleaved
reads with distinct predicates return every event exactly once, though not
necessarily in per-predicate arrival order. -/
theorem read_returns_first_match (filter : Event → Bool)
    (fuel : Nat) (pre post : List Event) (ev : Event) (sk : List Event)
    (script : List SourceItem)
    (hpre : ∀ e ∈ pre, filter e = false) (hev : filter ev = true) :
    Shared.read filter (fuel + 1)
        { events := pre ++ ev :: post, skipped_events := sk } [] script
      = (.ok ev, { events := post ++ pre, skipped_events := sk }, script) := by
  simp only [Shared.read]
  rw [readScan_first_match filter ev post hev pre [] hpre]
  simp

/-- C2 witness: the amended read theorem applied to the concrete buffer
`[focusOut, escape-key]` with a key predicate. -/
theorem read_returns_first_match_witness :
    (∀ e ∈ ([Event.focusOut] : List Event),
      (fun e => match e with | Event.key _ => true | _ => false) e = false) ∧
    (fun e => match e with | Event.key _ => true | _ => false)
        (Event.key (KeyEvent.fromCode .escape)) = true ∧
    Shared.read (fun e => match e with | Event.key _ => true | _ => false) 3
        { events := [.focusOut, .key (KeyEvent.fromCode .escape)], skipped_events := [] } [] []
      = (.ok (.key (KeyEvent.fromCode .escape)),
         { events := [] ++ [Event.focusOut], skipped_events := [] }, []) :=
  ⟨by decide, by decide,
    read_returns_first_match _ 2 [Event.focusOut] [] (.key (KeyEvent.fromCode .escape)) [] []
      (by decide) (by decide)⟩

/-- The draw loop of `Shared::poll` leaves an empty scratch list whenever it
returns `Ok` and the script contains neither an interruption nor an I/O
error: every such return path drains `skipped_events` into the FIFO first. -/
theorem pollLoop_ok_drains (filter : Event → Bool) (elapsed : Nat → Bool) :
    ∀ (script : List SourceItem) (i : Nat) (sh : Shared) (b : Bool) (sh' : Shared)
      (script' : List SourceItem),
    (∀ item ∈ script, item ≠ .interrupted ∧ item ≠ .ioError) →
    Shared.pollLoop filter elapsed script i sh = (.ok b, sh', script') →
    sh'.skipped_events = [] := by
  intro script
  induction script with
  | nil =>
    intro i sh b sh' script' _ h
    simp [Shared.pollLoop] at h
  | cons item rest ih =>
    intro i sh b sh' script' hscript h
    have hhead := hscript item (by simp)
    have hrest : ∀ x ∈ rest, x ≠ SourceItem.interrupted ∧ x ≠ SourceItem.ioError :=
      fun x hx => hscript x (by simp [hx])
    cases item with
    | interrupted => exact absurd rfl hhead.1
    | ioError => exact absurd rfl hhead.2
    | event e =>
      simp only [Shared.pollLoop] at h
      by_cases hf : filter e
      · simp only [hf, if_true] at h
        have h2 := congrArg (fun p => p.2.1) h
        simp only at h2
        rw [← h2]
      · simp only [hf, Bool.false_eq_true, if_false] at h
        by_cases he : elapsed i
        · simp only [he, if_true] at h
          have h2 := congrArg (fun p => p.2.1) h
          simp only at h2
          rw [← h2]
        · simp only [he, Bool.false_eq_true, if_false] at h
          exact ih (i + 1) _ b sh' script' hrest h
    | noData =>
      simp only [Shared.pollLoop] at h
      by_cases he : elapsed i
      · simp only [he, if_true] at h
        have h2 := congrArg (fun p => p.2.1) h
        simp only at h2
        rw [← h2]
      · simp only [he, Bool.false_eq_true, if_false] at h
        exact ih (i + 1) _ b sh' script' hrest h

/-- C5 counterexample: a poll interrupted by a wake after drawing one
non-matching event from the source returns `Ok(false)` with that event still
sitting in the `skipped_events` scratch field (`reader.rs` line 97 returns
without the drain at line 102), so the scratch list is not empty between
operations. -/
theorem poll_interrupted_keeps_scratch :
    Shared.poll (fun _ => false) (fun _ => false) { events := [], skipped_events := [] }
        [.event .focusIn, .interrupted]
      = (.ok false, { events := [], skipped_events := [.focusIn] }, []) ∧
    ([Event.focusIn] : List Event) ≠ [] := by
  decide

/-- C5 (amended): starting from an empty scratch list, a poll that returns
`Ok` without the byte source reporting an interruption or an I/O error —
the match-found and timeout-elapsed return paths — always splices the
skipped events back into the shared FIFO before returning, leaving the
scratch list empty; only the interrupted-by-wake and error returns leave
events in the scratch field (to be drained by a later completed poll). -/
theorem poll_ok_leaves_empty_scratch (filter : Event → Bool) (elapsed : Nat → Bool)
    (sh : Shared) (script : List SourceItem) (b : Bool) (sh' : Shared)
    (script' : List SourceItem)
    (h0 : sh.skipped_events = [])
    (hscript : ∀ item ∈ script, item ≠ SourceItem.interrupted ∧ item ≠ SourceItem.ioError)
    (h : Shared.poll filter elapsed sh script = (.ok b, sh', script')) :
    sh'.skipped_events = [] := by
  unfold Shared.poll at h
  by_cases hany : sh.events.any filter
  · simp only [hany, if_true] at h
    have h2 := congrArg (fun p => p.2.1) h
    simp only at h2
    rw [← h2]
    exact h0
  · simp only [hany, Bool.false_eq_true, if_false] at h
    exact pollLoop_ok_drains filter elapsed script 0 sh b sh' script' hscript h

/-- C5 witness: the amended scratch theorem applied to a concrete
timeout-elapsing poll over a one-item script. -/
theorem poll_ok_leaves_empty_scratch_witness :
    (({ events := [], skipped_events := [] } : Shared).skipped_events = []) ∧
    (∀ item ∈ ([SourceItem.noData] : List SourceItem),
      item ≠ SourceItem.interrupted ∧ item ≠ SourceItem.ioError) ∧
    (({ events := [], skipped_events := [] } : Shared).skipped_events = []) :=
  ⟨rfl, by decide,
    poll_ok_leaves_empty_scratch (fun _ => true) (fun _ => true)
      { events := [], skipped_events := [] } [SourceItem.noData] false
      { events := [], skipped_events := [] } [] rfl (by decide) (by decide)⟩

/-- Whatever the draw loop of `Shared::poll` does, the previously buffered
events survive as one contiguous, order-preserved segment of the resulting
FIFO: at most one newly drawn matching event is pushed in front of them, and
drained skipped events are appended behind them. -/
theorem pollLoop_events_segment (filter : Event → Bool) (elapsed : Nat → Bool) :
    ∀ (script : List SourceItem) (i : Nat) (sh : Shared) (out : PollResult) (sh' : Shared)
      (script' : List SourceItem),
    Shared.pollLoop filter elapsed script i sh = (out, sh', script') →
    ∃ pre post, sh'.events = pre ++ sh.events ++ post ∧ pre.length ≤ 1 := by
  intro script
  induction script with
  | nil =>
    intro i sh out sh' script' h
    simp only [Shared.pollLoop] at h
    have h2 := congrArg (fun p => p.2.1) h
    simp only at h2
    exact ⟨[], [], by simp [← h2], by simp⟩
  | cons item rest ih =>
    intro i sh out sh' script' h
    cases item with
    | interrupted =>
      simp only [Shared.pollLoop] at h
      have h2 := congrArg (fun p => p.2.1) h
      simp only at h2
      exact ⟨[], [], by simp [← h2], by simp⟩
    | ioError =>
      simp only [Shared.pollLoop] at h
      have h2 := congrArg (fun p => p.2.1) h
      simp only at h2
      exact ⟨[], [], by simp [← h2], by simp⟩
    | event e =>
      simp only [Shared.pollLoop] at h
      by_cases hf : filter e
      · simp only [hf, if_true] at h
        have h2 := congrArg (fun p => p.2.1) h
        simp only at h2
        exact ⟨[e], sh.skipped_events, by simp [← h2], by simp⟩
      · simp only [hf, Bool.false_eq_true, if_false] at h
        by_cases he : elapsed i
        · simp only [he, if_true] at h
          have h2 := congrArg (fun p => p.2.1) h
          simp only at h2
          exact ⟨[], sh.skipped_events ++ [e], by simp [← h2], by simp⟩
        · simp only [he, Bool.false_eq_true, if_false] at h
          obtain ⟨pre, post, hseg, hlen⟩ :=
            ih (i + 1) { sh with skipped_events := sh.skipped_events ++ [e] } out sh' script' h
          exact ⟨pre, post, hseg, hlen⟩
    | noData =>
      simp only [Shared.pollLoop] at h
      by_cases he : elapsed i
      · simp only [he, if_true] at h
        have h2 := congrArg (fun p => p.2.1) h
        simp only at h2
        exact ⟨[], sh.skipped_events, by simp [← h2], by simp⟩
      · simp only [he, Bool.false_eq_true, if_false] at h
        exact ih (i + 1) sh out sh' script' h

/-- C9 counterexample: with a zero timeout (always-elapsed schedule) and no
buffered match, a single `poll(P, 0)` call still performs one draw from the
byte source and appends the drawn non-matching event to the FIFO
(`reader.rs` line 102): the buffer changes from `[]` to `[focusIn]`, so
"poll any number of times never changes the set of buffered events" fails
as stated. -/
theorem poll_zero_timeout_mutates_buffer :
    Shared.poll (fun _ => false) (fun _ => true) { events := [], skipped_events := [] }
        [.event .focusIn]
      = (.ok false, { events := [.focusIn], skipped_events := [] }, []) ∧
    ([Event.focusIn] : List Event) ≠ ([] : List Event) := by
  decide

/-- C9 (amended): when an event matching the predicate is already in the
shared FIFO, `poll` returns true immediately with no mutation whatsoever —
so any number of such calls leaves the buffer unchanged; and in every other
case a poll call never removes or reorders the previously buffered events:
they remain one contiguous in-order segment of the new FIFO, with at most
one newly drawn matching event pushed in front and newly drawn non-matching
events (plus drained scratch entries) appended behind. -/
theorem poll_preserves_buffered_events :
    (∀ (filter : Event → Bool) (elapsed : Nat → Bool) (sh : Shared)
       (script : List SourceItem),
      sh.events.any filter = true →
      Shared.poll filter elapsed sh script = (.ok true, sh, script)) ∧
    (∀ (filter : Event → Bool) (elapsed : Nat → Bool) (sh : Shared)
       (script : List SourceItem) (out : PollResult) (sh' : Shared)
       (script' : List SourceItem),
      Shared.poll filter elapsed sh script = (out, sh', script') →
      ∃ pre post, sh'.events = pre ++ sh.events ++ post ∧ pre.length ≤ 1) := by
  constructor
  · intro filter elapsed sh script hany
    unfold Shared.poll
    rw [if_pos hany]
  · intro filter elapsed sh script out sh' script' h
    unfold Shared.poll at h
    by_cases hany : sh.events.any filter
    · simp only [hany, if_true] at h
      have h2 := congrArg (fun p => p.2.1) h
      simp only at h2
      exact ⟨[], [], by simp [← h2], by simp⟩
    · simp only [hany, Bool.false_eq_true, if_false] at h
      exact pollLoop_events_segment filter elapsed script 0 sh out sh' script' h

/-- C9 witness: both halves of the amended poll theorem at concrete inputs —
a buffered match returns true with no mutation, and a drawing poll keeps the
old buffer as a contiguous segment. -/
theorem poll_preserves_buffered_events_witness :
    Shared.poll (fun _ => true) (fun _ => true) { events := [.focusIn], skipped_events := [] }
        [.event .focusOut]
      = (.ok true, { events := [.focusIn], skipped_events := [] }, [.event .focusOut]) ∧
    ∃ pre post,
      ({ events := [.focusIn], skipped_events := [] } : Shared).events
        = pre ++ ({ events := [.focusIn], skipped_events := [] } : Shared).events ++ post ∧
      pre.length ≤ 1 :=
  ⟨poll_preserves_buffered_events.1 (fun _ => true) (fun _ => true)
      { events := [.focusIn], skipped_events := [] } [.event .focusOut] (by decide),
    poll_preserves_buffered_events.2 (fun _ => true) (fun _ => true)
      { events := [.focusIn], skipped_events := [] } [.event .focusOut] (.ok true)
      { events := [.focusIn], skipped_events := [] } [.event .focusOut] (by decide)⟩

/-- Decoding the standard three-byte UTF-8 encoding of a scalar value `c`
(`0x800 ≤ c ≤ 0xFFFF`, not a surrogate) at the head of a byte list yields
exactly `c`. -/
theorem utf8DecodeFirst_encode3 (c : Nat) (h1 : 2048 ≤ c) (h2 : c ≤ 65535)
    (h3 : ¬(55296 ≤ c ∧ c ≤ 57343)) (rest : List Nat) :
    utf8DecodeFirst ((224 + c / 4096) :: (128 + c / 64 % 64) :: (128 + c % 64) :: rest)
      = some (c, rest) := by
  have hq : c / 4096 ≤ 15 := by omega
  have hr : c / 64 % 64 ≤ 63 := by omega
  have hs : c % 64 ≤ 63 := by omega
  rw [utf8DecodeFirst]
  rw [if_neg (by omega), if_neg (by omega), if_pos (by omega)]
  simp only
  rw [if_pos ?cond]
  case cond =>
    split_ifs <;> omega
  have hval : (224 + c / 4096 - 224) * 4096 + (128 + c / 64 % 64 - 128) * 64 +
      (128 + c % 64 - 128) = c := by omega
  rw [hval]

/-- A lone three-byte leading byte is not a complete UTF-8 sequence. -/
theorem utf8DecodeFirst_encode3_one (c : Nat) (h1 : 2048 ≤ c) (h2 : c ≤ 65535) :
    utf8DecodeFirst [224 + c / 4096] = none := by
  rw [utf8DecodeFirst]
  rw [if_neg (by omega), if_neg (by omega), if_pos (by omega)]

/-- A three-byte leading byte followed by one continuation byte is still not
a complete UTF-8 sequence. -/
theorem utf8DecodeFirst_encode3_two (c : Nat) (h1 : 2048 ≤ c) (h2 : c ≤ 65535) :
    utf8DecodeFirst [224 + c / 4096, 128 + c / 64 % 64] = none := by
  rw [utf8DecodeFirst]
  rw [if_neg (by omega), if_neg (by omega), if_pos (by omega)]

theorem fromUtf8_encode3 (c : Nat) (h1 : 2048 ≤ c) (h2 : c ≤ 65535)
    (h3 : ¬(55296 ≤ c ∧ c ≤ 57343)) :
    fromUtf8 [224 + c / 4096, 128 + c / 64 % 64, 128 + c % 64] = some [c] := by
  show fromUtf8Loop 3 _ = _
  rw [show (3 : Nat) = 2 + 1 from rfl]
  rw [fromUtf8Loop]
  rw [utf8DecodeFirst_encode3 c h1 h2 h3]
  rfl

theorem fromUtf8_encode3_one (c : Nat) (h1 : 2048 ≤ c) (h2 : c ≤ 65535) :
    fromUtf8 [224 + c / 4096] = none := by
  show fromUtf8Loop 1 _ = _
  rw [show (1 : Nat) = 0 + 1 from rfl]
  rw [fromUtf8Loop]
  rw [utf8DecodeFirst_encode3_one c h1 h2]

theorem fromUtf8_encode3_two (c : Nat) (h1 : 2048 ≤ c) (h2 : c ≤ 65535) :
    fromUtf8 [224 + c / 4096, 128 + c / 64 % 64] = none := by
  show fromUtf8Loop 2 _ = _
  rw [show (2 : Nat) = 1 + 1 from rfl]
  rw [fromUtf8Loop]
  rw [utf8DecodeFirst_encode3_two c h1 h2]

theorem parse_utf8_char_encode3 (c : Nat) (h1 : 2048 ≤ c) (h2 : c ≤ 65535)
    (h3 : ¬(55296 ≤ c ∧ c ≤ 57343)) :
    parse_utf8_char [224 + c / 4096, 128 + c / 64 % 64, 128 + c % 64] = .ok (some c) := by
  rw [parse_utf8_char]
  rw [fromUtf8_encode3 c h1 h2 h3]

/-- With only the leading byte present, `parse_utf8_char` reports an
incomplete sequence. -/
theorem parse_utf8_char_encode3_one (c : Nat) (h1 : 2048 ≤ c) (h2 : c ≤ 65535) :
    parse_utf8_char [224 + c / 4096] = .ok none := by
  rw [parse_utf8_char]
  rw [fromUtf8_encode3_one c h1 h2]
  simp only
  rw [if_neg (by omega), if_neg (by omega), if_pos (by omega)]
  simp

/-- Masking a continuation byte `128 + r` (`r ≤ 63`) with `0b11000000`
leaves exactly the top bit `0b10000000`. -/
theorem land192 : ∀ r : Nat, r ≤ 63 → (128 + r) &&& 192 = 128 := by
  decide

/-- With the leading byte and one continuation byte present,
`parse_utf8_char` still reports an incomplete sequence. -/
theorem parse_utf8_char_encode3_two (c : Nat) (h1 : 2048 ≤ c) (h2 : c ≤ 65535) :
    parse_utf8_char [224 + c / 4096, 128 + c / 64 % 64] = .ok none := by
  rw [parse_utf8_char]
  rw [fromUtf8_encode3_two c h1 h2]
  simp only
  rw [if_neg (by omega), if_neg (by omega), if_pos (by omega)]
  simp only
  rw [if_pos (by simp)]
  have hall : ([128 + c / 64 % 64].all fun b => b &&& 192 == 128) = true := by
    simp only [List.all_cons, List.all_nil, Bool.and_true]
    rw [land192 (c / 64 % 64) (by omega)]
    rfl
  rw [hall]
  simp

/-- C8: for every three-byte UTF-8 encoded character (scalar value `c` with
`0x800 ≤ c ≤ 0xFFFF`, not a surrogate, encoded as
`[0xE0 + c / 2^12, 0x80 + (c / 2^6) % 2^6, 0x80 + c % 2^6]`), feeding only
the first two bytes to a fresh decoder yields no event and retains both
bytes, and then feeding the third byte yields exactly one `Char` key event
carrying the decoded code point `c` — for either value of `maybe_more` on
each feed. -/
theorem utf8_three_byte_partiality (isUp : Nat → Bool) (mm mm' : Bool) (c : Nat)
    (h1 : 2048 ≤ c) (h2 : c ≤ 65535) (h3 : ¬(55296 ≤ c ∧ c ≤ 57343)) :
    Parser.parse isUp Parser.default [224 + c / 4096, 128 + c / 64 % 64] mm
      = .ok { buffer := [224 + c / 4096, 128 + c / 64 % 64], events := [] } ∧
    Parser.parse isUp { buffer := [224 + c / 4096, 128 + c / 64 % 64], events := [] }
        [128 + c % 64] mm'
      = .ok { buffer := [],
              events := [.event (.key (KeyEvent.new (.char c)
                (if isUp c then Modifiers.SHIFT else Modifiers.NONE)))] } := by
  have hq : c / 4096 ≤ 15 := by omega
  have e1 : ∀ b : Bool, parse_event isUp [224 + c / 4096] b = .ok none := by
    intro b
    rw [parse_event]
    rw [if_neg (by omega), if_neg (by omega), if_neg (by omega), if_neg (by omega),
      if_neg (by omega), if_neg (by omega), if_neg (by omega)]
    rw [parse_utf8_char_encode3_one c h1 h2]
  have e2 : ∀ b : Bool,
      parse_event isUp [224 + c / 4096, 128 + c / 64 % 64] b = .ok none := by
    intro b
    rw [parse_event]
    rw [if_neg (by omega), if_neg (by omega), if_neg (by omega), if_neg (by omega),
      if_neg (by omega), if_neg (by omega), if_neg (by omega)]
    rw [parse_utf8_char_encode3_two c h1 h2]
  have e3 : ∀ b : Bool,
      parse_event isUp [224 + c / 4096, 128 + c / 64 % 64, 128 + c % 64] b
        = .ok (some (.event (.key (KeyEvent.new (.char c)
            (if isUp c then Modifiers.SHIFT else Modifiers.NONE))))) := by
    intro b
    rw [parse_event]
    rw [if_neg (by omega), if_neg (by omega), if_neg (by omega), if_neg (by omega),
      if_neg (by omega), if_neg (by omega), if_neg (by omega)]
    rw [parse_utf8_char_encode3 c h1 h2 h3]
  have e1a : ∀ b : Bool,
      parse_event isUp
        (List.take (0 + 1 - 0) (List.drop 0 [224 + c / 4096, 128 + c / 64 % 64])) b
        = .ok none := fun b => e1 b
  have e2a : ∀ b : Bool,
      parse_event isUp
        (List.take (1 + 1 - 0) (List.drop 0 [224 + c / 4096, 128 + c / 64 % 64])) b
        = .ok none := fun b => e2 b
  have e1b : ∀ b : Bool,
      parse_event isUp
        (List.take (0 + 1 - 0)
          (List.drop 0 [224 + c / 4096, 128 + c / 64 % 64, 128 + c % 64])) b
        = .ok none := fun b => e1 b
  have e2b : ∀ b : Bool,
      parse_event isUp
        (List.take (1 + 1 - 0)
          (List.drop 0 [224 + c / 4096, 128 + c / 64 % 64, 128 + c % 64])) b
        = .ok none := fun b => e2 b
  have e3b : ∀ b : Bool,
      parse_event isUp
        (List.take (2 + 1 - 0)
          (List.drop 0 [224 + c / 4096, 128 + c / 64 % 64, 128 + c % 64])) b
        = .ok (some (.event (.key (KeyEvent.new (.char c)
            (if isUp c then Modifiers.SHIFT else Modifiers.NONE))))) := fun b => e3 b
  constructor
  · simp only [Parser.parse, Parser.default, Parser.process_bytes, List.nil_append,
      List.length_cons, List.length_nil]
    rw [show (0 + 1 + 1 : Nat) = 1 + 1 from rfl]
    rw [processLoop, e1a]
    dsimp only
    rw [show (1 : Nat) = 0 + 1 from rfl]
    rw [processLoop, e2a]
    dsimp only
    rw [processLoop]
    rfl
  · simp only [Parser.parse, Parser.process_bytes, List.cons_append, List.nil_append,
      List.length_cons, List.length_nil]
    rw [show (0 + 1 + 1 + 1 : Nat) = 2 + 1 from rfl]
    rw [processLoop, e1b]
    dsimp only
    rw [show (2 : Nat) = 1 + 1 from rfl]
    rw [processLoop, e2b]
    dsimp only
    rw [show (1 : Nat) = 0 + 1 from rfl]
    rw [processLoop, e3b]
    dsimp only
    rw [processLoop]
    rfl

/-- C8 witness: the three-byte partiality theorem at the concrete character
U+4E2D (code point 20013, bytes `E4 B8 AD`). -/
theorem utf8_three_byte_partiality_witness :
    Parser.parse (fun _ => false) Parser.default
        [224 + 20013 / 4096, 128 + 20013 / 64 % 64] true
      = .ok { buffer := [224 + 20013 / 4096, 128 + 20013 / 64 % 64], events := [] } ∧
    Parser.parse (fun _ => false)
        { buffer := [224 + 20013 / 4096, 128 + 20013 / 64 % 64], events := [] }
        [128 + 20013 % 64] false
      = .ok { buffer := [],
              events := [.event (.key (KeyEvent.new (.char 20013)
                (if (fun _ => false) 20013 then Modifiers.SHIFT else Modifiers.NONE)))] } :=
  utf8_three_byte_partiality (fun _ => false) true false 20013
    (by decide) (by decide) (by decide)
